import Mathlib

/-!
Verification of `scripts/h2画像生成/generate_h2_images.py`.

The script's pure string processing (`yaml_to_prompt`, the text
transformation inside `update_html`) is embedded as executable functions on
`String` / `List Char`; the file-system dependent parts (`load_config`,
the per-item loop of `main`) are embedded as functions over an explicit
directory / run state.  All definitions follow the Python source; the one
definition written from the specification's wording (`yamlToPromptSpecL`)
is marked as such and compared with the source embedding.
-/

set_option autoImplicit false

namespace GenerateH2Images

/-! ### Python string primitives -/

/-- Whitespace characters removed by Python's `str.strip()` (ASCII range). -/
def pyIsSpace (c : Char) : Bool :=
  c = ' ' || c = '\t' || c = '\n' || c = '\r' || c = '\x0b' || c = '\x0c'

/-- Python `str.strip()` on a list of characters. -/
def stripL (l : List Char) : List Char :=
  ((l.dropWhile pyIsSpace).reverse.dropWhile pyIsSpace).reverse

/-- Python `str.split("\n")` on a list of characters: split at every
newline, keeping empty pieces (the result is never empty). -/
def splitOnNlL : List Char → List (List Char)
  | [] => [[]]
  | c :: rest =>
    if c = '\n' then [] :: splitOnNlL rest
    else
      match splitOnNlL rest with
      | [] => [[c]]
      | x :: xs => (c :: x) :: xs

/-- Python `line.split(":", 1)` on a list of characters: the part before the
first colon and the part after it (the whole list and `[]` when there is no
colon; callers only use it on lines that contain a colon). -/
def breakAtColonL : List Char → List Char × List Char
  | [] => ([], [])
  | c :: rest =>
    if c = ':' then ([], rest)
    else
      let p := breakAtColonL rest
      (c :: p.1, p.2)

/-- Python `str.lower()` (ASCII behaviour, via `Char.toLower`). -/
def lowerL (l : List Char) : List Char := l.map Char.toLower

/-- Python `line.startswith("#")`. -/
def startsHashL : List Char → Bool
  | '#' :: _ => true
  | _ => false

/-! ### `yaml_to_prompt` -/

/-- The quality literal prepended in `yaml_to_prompt`. -/
def qualityPart : String :=
  "4K HDR professional photograph, sharp focus, high detail, controlled studio lighting, "

/-- The aspect-ratio literal in `yaml_to_prompt`. -/
def aspectPart : String := "16:9 aspect ratio. "

/-- The currency-mode literal in `yaml_to_prompt`. -/
def currencyPart : String :=
  "Japanese 10000 yen banknote, ten thousand yen note, highest denomination. NOT 1000 yen, NOT 5000 yen. NOT US dollar. "

/-- The two trailing safety literals of `yaml_to_prompt`, concatenated. -/
def safetyPart : String :=
  "Do not reproduce any real currency design, logos, or identifiable security features. Abstract representation only."

/-- One iteration of the `for line in lines` loop of `yaml_to_prompt`:
the value contributed by a line, if any. -/
def lineValueL (line : List Char) : Option (List Char) :=
  let l := stripL line
  if l.contains ':' && !startsHashL l then
    let p := breakAtColonL l
    let key := lowerL (stripL p.1)
    let val := stripL p.2
    if key = ("avoid").data then none
    else if key ≠ [] ∧ val ≠ [] then some val else none
  else none

/-- `yaml_to_prompt` on lists of characters. -/
def yamlToPromptL (yamlText : List Char) (currencyMode : Bool) : List Char :=
  let lines := splitOnNlL (stripL yamlText)
  let parts := lines.filterMap lineValueL
  let base := List.intercalate [' '] parts
  qualityPart.data ++ aspectPart.data ++
    (if currencyMode then currencyPart.data else []) ++
    base ++ [' '] ++ safetyPart.data

/-- `yaml_to_prompt` from the source: build the English Imagen prompt from
the YAML-style text. -/
def yamlToPrompt (yamlText : String) (currencyMode : Bool) : String :=
  ⟨yamlToPromptL yamlText.data currencyMode⟩

/-- Written from the specification's words: a stripped line is kept when it
contains a colon, does not start with `#`, and splits at the first colon
into a nonempty key that is not `avoid` (case-insensitively) and a nonempty
value. -/
def specKeepL (line : List Char) : Bool :=
  let l := stripL line
  l.contains ':' && !startsHashL l &&
    (let p := breakAtColonL l
     !(stripL p.1).isEmpty && !(lowerL (stripL p.1) == ("avoid").data) &&
       !(stripL p.2).isEmpty)

/-- Written from the specification's words: the value of a kept line is the
stripped text after the first colon of the stripped line. -/
def specValueL (line : List Char) : List Char :=
  stripL (breakAtColonL (stripL line)).2

/-- Written from the specification's words: the claimed shape of the
assembled prompt — quality literal, aspect literal, currency literal iff
`currencyMode`, the space-joined values of the kept lines, a trailing
space, and the safety suffix. -/
def yamlToPromptSpecL (yamlText : List Char) (currencyMode : Bool) : List Char :=
  let lines := splitOnNlL (stripL yamlText)
  let vals := (lines.filter specKeepL).map specValueL
  qualityPart.data ++ aspectPart.data ++
    (if currencyMode then currencyPart.data else []) ++
    List.intercalate [' '] vals ++ [' '] ++ safetyPart.data

/-- The spec-shaped prompt assembly on `String`. -/
def yamlToPromptSpec (yamlText : String) (currencyMode : Bool) : String :=
  ⟨yamlToPromptSpecL yamlText.data currencyMode⟩

/-! ### `update_html` -/

/-- The search pattern of `update_html` for a given alt text.  The pattern
is built with `re.escape(alt)`, so it matches exactly this literal
character sequence for every alt. -/
def placeholderL (alt : List Char) : List Char :=
  ("<img class=\"aligncenter size-full\" src=\"\" alt=\"").data ++ alt ++ ("\"").data

/-- The raw replacement template of `update_html` for a given alt and src:
the f-string `<img class="aligncenter size-full" src="{src}" alt="{alt}"`.
`re.sub` processes backslash template escapes in this string
(`parseTemplateGo` below); it is inserted literally only when it contains
no backslash. -/
def replacementL (alt src : List Char) : List Char :=
  ("<img class=\"aligncenter size-full\" src=\"").data ++ src ++
    ("\" alt=\"").data ++ alt ++ ("\"").data

/-- The search pattern of `update_html` on `String`. -/
def placeholderStr (alt : String) : String :=
  "<img class=\"aligncenter size-full\" src=\"\" alt=\"" ++ alt ++ "\""

/-- The raw replacement template of `update_html` on `String`. -/
def replacementStr (alt src : String) : String :=
  "<img class=\"aligncenter size-full\" src=\"" ++ src ++ "\" alt=\"" ++ alt ++ "\""

/-- Replace the first occurrence of `pat` in `text` (if any) by `repl`:
the placement machinery of `re.sub(..., count=1)`, used with the already
processed replacement text. -/
def replaceFirstL (pat repl : List Char) : List Char → List Char
  | [] => if pat.isEmpty then repl else []
  | c :: rest =>
    if pat.isPrefixOf (c :: rest) then repl ++ (c :: rest).drop pat.length
    else c :: replaceFirstL pat repl rest

/-- Whether `pat` occurs as a contiguous sublist of `text`. -/
def occursL (pat : List Char) : List Char → Bool
  | [] => pat.isEmpty
  | c :: rest => pat.isPrefixOf (c :: rest) || occursL pat rest

/-- Whether `pat` occurs in `text` at position `i`. -/
def occursAtL (pat text : List Char) (i : Nat) : Bool :=
  pat.isPrefixOf (text.drop i)

/-! #### The `re.sub` replacement template

`re.sub` parses the replacement string into literal characters and group
references before substituting (CPython `re._parser.parse_template`,
here CPython 3.11); a malformed template raises `re.error` (or
`IndexError` for an unknown group name) even when the text contains no
match.  `update_html`'s patterns are `re.escape`'d literals with no
capture groups, so the only valid group reference is 0, the whole match,
and the whole match is always the pattern itself.  The parser below is
the character-at-a-time rendition of `parse_template` for a pattern with
zero groups; Python's Unicode identifier test and `int()` group-name
parsing are modelled for ASCII text. -/

/-- One parsed element of a replacement template: a literal character or a
group reference. -/
inductive TItem
  | ch (c : Char)
  | group (n : Nat)
deriving DecidableEq

/-- Parser state: normal text, after a backslash, after `\g`, inside a
`\g<...>` name (accumulated reversed), after `\0` (up to two octal digits
may follow), after one octal digit of `\0`, after one digit `\1`-`\9`, or
after two digits. -/
inductive TmplState
  | norm
  | bs
  | g0
  | gname (acc : List Char)
  | o0
  | o1 (v : Nat)
  | d1 (d : Char)
  | d2 (d e : Char)

/-- Octal digit test (`OCTDIGITS`). -/
def isOctDigit (c : Char) : Bool := '0' ≤ c && c ≤ '7'

/-- Numeric value of an ASCII digit. -/
def digitVal (c : Char) : Nat := c.toNat - 48

/-- Digit run with single underscores between digits, as accepted by
Python's `int()` after the first digit. -/
def parseNatUGo (acc : Nat) : List Char → Option Nat
  | [] => some acc
  | '_' :: rest =>
    match rest with
    | c :: rest2 =>
      if c.isDigit then parseNatUGo (acc * 10 + digitVal c) rest2 else none
    | [] => none
  | c :: rest =>
    if c.isDigit then parseNatUGo (acc * 10 + digitVal c) rest else none

/-- Nonempty digit run with single underscores between digits. -/
def parseNatU : List Char → Option Nat
  | [] => none
  | c :: rest => if c.isDigit then parseNatUGo (digitVal c) rest else none

/-- Python `int(name)` as used on `\g<...>` group names: surrounding
whitespace stripped, optional sign, digits with single underscores
(ASCII). -/
def pyIntName (name : List Char) : Option Int :=
  match stripL name with
  | '+' :: rest => (parseNatU rest).map fun n => (n : Int)
  | '-' :: rest => (parseNatU rest).map fun n => -(n : Int)
  | t => (parseNatU t).map fun n => (n : Int)

/-- Python `str.isidentifier()` (ASCII behaviour). -/
def isIdentifierL : List Char → Bool
  | [] => false
  | c :: rest => (c.isAlpha || c = '_') && rest.all fun x => x.isAlphanum || x = '_'

/-- Resolve a `\g<...>` group name against a pattern with no groups:
an identifier is an unknown group name, a nonnegative integer reads as a
group index (only 0 is in range), anything else is a bad character. -/
def resolveGroupName (name : List Char) : Except String Nat :=
  if name.isEmpty then .error "missing group name"
  else if isIdentifierL name then .error "unknown group name"
  else
    match pyIntName name with
    | some i =>
      if i < 0 then .error "bad character in group name"
      else if i = 0 then .ok 0
      else .error "invalid group reference"
    | none => .error "bad character in group name"

/-- The `ESCAPES` table of the template parser: `\a \b \f \n \r \t \v \\`. -/
def templateEscapeChar (e : Char) : Option Char :=
  if e = 'a' then some (Char.ofNat 7)
  else if e = 'b' then some (Char.ofNat 8)
  else if e = 'f' then some (Char.ofNat 12)
  else if e = 'n' then some (Char.ofNat 10)
  else if e = 'r' then some (Char.ofNat 13)
  else if e = 't' then some (Char.ofNat 9)
  else if e = 'v' then some (Char.ofNat 11)
  else if e = '\\' then some '\\'
  else none

/-- `parse_template` for a zero-group pattern, one character at a time.
Literal characters pass through; `\g<name>` resolves a group name; `\0`
with up to two octal digits and `\ddd` with three octal digits are octal
escapes (the latter range-checked); other `\d...` digit runs are group
references, all out of range here; `ESCAPES` entries map to control
characters; other escaped ASCII letters are bad escapes; any other escaped
character keeps the backslash. -/
def parseTemplateGo : TmplState → List Char → Except String (List TItem)
  | .norm, [] => .ok []
  | .norm, c :: rest =>
    if c = '\\' then parseTemplateGo .bs rest
    else (parseTemplateGo .norm rest).map fun l => TItem.ch c :: l
  | .bs, [] => .error "bad escape (end of pattern)"
  | .bs, e :: rest =>
    if e = 'g' then parseTemplateGo .g0 rest
    else if e = '0' then parseTemplateGo .o0 rest
    else if e.isDigit then parseTemplateGo (.d1 e) rest
    else
      match templateEscapeChar e with
      | some c => (parseTemplateGo .norm rest).map fun l => TItem.ch c :: l
      | none =>
        if e.isAlpha then .error "bad escape"
        else (parseTemplateGo .norm rest).map fun l => TItem.ch '\\' :: TItem.ch e :: l
  | .g0, [] => .error "missing <"
  | .g0, c :: rest =>
    if c = '<' then parseTemplateGo (.gname []) rest else .error "missing <"
  | .gname _, [] => .error "missing >, unterminated name"
  | .gname acc, c :: rest =>
    if c = '>' then
      match resolveGroupName acc.reverse with
      | .error e => .error e
      | .ok n => (parseTemplateGo .norm rest).map fun l => TItem.group n :: l
    else parseTemplateGo (.gname (c :: acc)) rest
  | .o0, [] => .ok [TItem.ch (Char.ofNat 0)]
  | .o0, c :: rest =>
    if isOctDigit c then parseTemplateGo (.o1 (digitVal c)) rest
    else if c = '\\' then
      (parseTemplateGo .bs rest).map fun l => TItem.ch (Char.ofNat 0) :: l
    else (parseTemplateGo .norm rest).map fun l =>
      TItem.ch (Char.ofNat 0) :: TItem.ch c :: l
  | .o1 v, [] => .ok [TItem.ch (Char.ofNat v)]
  | .o1 v, c :: rest =>
    if isOctDigit c then
      (parseTemplateGo .norm rest).map fun l =>
        TItem.ch (Char.ofNat (v * 8 + digitVal c)) :: l
    else if c = '\\' then
      (parseTemplateGo .bs rest).map fun l => TItem.ch (Char.ofNat v) :: l
    else (parseTemplateGo .norm rest).map fun l =>
      TItem.ch (Char.ofNat v) :: TItem.ch c :: l
  | .d1 _, [] => .error "invalid group reference"
  | .d1 d, c :: rest =>
    if c.isDigit then parseTemplateGo (.d2 d c) rest
    else .error "invalid group reference"
  | .d2 _ _, [] => .error "invalid group reference"
  | .d2 d e, c :: rest =>
    if isOctDigit d && isOctDigit e && isOctDigit c then
      let v := digitVal d * 64 + digitVal e * 8 + digitVal c
      if v > 255 then .error "octal escape value outside of range 0-0o377"
      else (parseTemplateGo .norm rest).map fun l => TItem.ch (Char.ofNat v) :: l
    else .error "invalid group reference"

/-- Parse a replacement template (zero-group pattern). -/
def parseTemplateL (repl : List Char) : Except String (List TItem) :=
  parseTemplateGo TmplState.norm repl

/-- Render a parsed template: literals stay, a group reference inserts the
matched text (the pattern is a zero-group literal, so a parsed reference
can only be group 0, the whole match). -/
def renderTemplateL (items : List TItem) (matched : List Char) : List Char :=
  match items with
  | [] => []
  | TItem.ch c :: rest => c :: renderTemplateL rest matched
  | TItem.group _ :: rest => matched ++ renderTemplateL rest matched

/-- `re.sub(pat, repl, text, count=1)` for a literal zero-group pattern:
the template is parsed eagerly (a malformed template raises even when the
text has no match); on success the first occurrence of the pattern, if
any, is replaced by the rendered template.  A match of a literal pattern
is always the pattern itself, so the rendered replacement does not depend
on the match position. -/
def reSubOnceL (pat repl text : List Char) : Except String (List Char) :=
  match parseTemplateL repl with
  | .error e => .error e
  | .ok items => .ok (replaceFirstL pat (renderTemplateL items pat) text)

/-- The `for alt, src in alt_to_src.items()` loop of `update_html`: one
`count=1` substitution per mapping entry, in order; a raised `re.error`
propagates and aborts the remaining entries. -/
def updateHtmlL (text : List Char) : List (List Char × List Char) →
    Except String (List Char)
  | [] => .ok text
  | p :: rest =>
    match reSubOnceL (placeholderL p.1) (replacementL p.1 p.2) text with
    | .error e => .error e
    | .ok t2 => updateHtmlL t2 rest

/-- The text transformation of `update_html` (reading and writing the file
aside): apply the placeholder substitutions of the alt-to-src mapping, in
mapping order; `.error` is a propagated `re.error`. -/
def updateHtml (text : String) (altToSrc : List (String × String)) :
    Except String String :=
  (updateHtmlL text.data (altToSrc.map fun p => (p.1.data, p.2.data))).map String.mk

/-- The literal-insertion description of the run: every entry's template
inserted verbatim.  It agrees with `updateHtmlL` exactly when no entry's
replacement template contains a backslash (`updateHtmlL_eq_plain`). -/
def updateHtmlPlainL (text : List Char) : List (List Char × List Char) → List Char
  | [] => text
  | p :: rest =>
    updateHtmlPlainL (replaceFirstL (placeholderL p.1) (replacementL p.1 p.2) text) rest

/-- The rendered replacement used for one mapping entry: the parsed
template of `replacementL alt src`, rendered with the matched text (always
`placeholderL alt`); `.error` when the template is malformed. -/
def renderedReplacementL (alt src : List Char) : Except String (List Char) :=
  match parseTemplateL (replacementL alt src) with
  | .error e => .error e
  | .ok items => .ok (renderTemplateL items (placeholderL alt))

/-- `occursL` on `String`. -/
def occursStr (pat text : String) : Bool := occursL pat.data text.data

/-- A single `update_html` substitution step for one mapping entry, seen
extensionally: either the text is unchanged, or one placeholder for the
mapped alt is rewritten in place into the filled-in tag, all surrounding
characters kept. -/
inductive PatchStep (alt src : List Char) : List Char → List Char → Prop
  | unchanged (t : List Char) : PatchStep alt src t t
  | rewrite (a b : List Char) :
      PatchStep alt src (a ++ placeholderL alt ++ b) (a ++ replacementL alt src ++ b)

/-- A run of `update_html` over a mapping, as a chain of per-entry
`PatchStep`s. -/
inductive PatchChain : List (List Char × List Char) → List Char → List Char → Prop
  | nil (t : List Char) : PatchChain [] t t
  | cons {alt src : List Char} {rest : List (List Char × List Char)}
      {t t1 t2 : List Char} :
      PatchStep alt src t t1 → PatchChain rest t1 t2 →
      PatchChain ((alt, src) :: rest) t t2

/-! ### `load_config` over an abstract KW directory -/

/-- The parts of the KW directory's state that `load_config` consults:
the files matching the glob `初稿：*.html` (in glob order), whether
`初稿_新.html` exists, whether `image_prompts.yaml` exists, and whether the
`images` subdirectory exists. -/
structure KwDir where
  shokoGlob : List String
  altHtmlExists : Bool
  promptsYamlExists : Bool
  imagesDirExists : Bool
deriving DecidableEq

/-- The triple returned by `load_config` (paths relative to the KW
directory). -/
structure Config where
  htmlFile : String
  promptsFile : String
  imagesDir : String
deriving DecidableEq

/-- `load_config`: pick the HTML file (glob first, `初稿_新.html` as
fallback), require `image_prompts.yaml`, create the `images` directory with
`exist_ok=True`.  The returned `KwDir` is the directory state after the
call. -/
def loadConfig (d : KwDir) : Except String (Config × KwDir) :=
  let htmlFiles :=
    if d.shokoGlob.isEmpty then
      if d.altHtmlExists then ["初稿_新.html"] else []
    else d.shokoGlob
  match htmlFiles with
  | [] => .error "初稿HTML（初稿：*.html または 初稿_新.html）が見つかりません"
  | htmlFile :: _ =>
    if d.promptsYamlExists then
      .ok (⟨htmlFile, "image_prompts.yaml", "images"⟩,
           { d with imagesDirExists := true })
    else .error "image_prompts.yaml が見つかりません"

/-! ### The per-item loop of `main` -/

/-- One record of the `prompts` list of `image_prompts.yaml`, as read by
`main` (`id`, `h2`, `alt`, `yaml`, optional `use_fixed` and
`currency_mode`). -/
structure PromptItem where
  id : String
  h2 : String
  alt : String
  yaml : String
  useFixed : Bool
  currencyMode : Option Bool
deriving DecidableEq

/-- The externals the loop consults: whether the fixed 大吉 image exists,
whether `generate_with_google_genai` succeeds for a given prompt and item
id, and whether `compress_image` succeeds (PIL available, image readable)
for a given file name. -/
structure Env where
  daikichiExists : Bool
  apiOk : String → String → Bool
  compressOk : String → Bool

/-- The mutable state of the loop: the file names present in the `images`
directory, and the `alt_to_src` dict in insertion order. -/
structure RunState where
  images : List String
  altToSrc : List (String × String)
deriving DecidableEq

/-- What the loop prints for one item: `OK` with the relative path, or
`SKIP`. -/
inductive Outcome
  | ok (relPath : String)
  | skip
deriving DecidableEq

/-- Add a file name to the directory listing (saving over an existing file
keeps one entry). -/
def fsAdd (fs : List String) (name : String) : List String :=
  if name ∈ fs then fs else fs ++ [name]

/-- Python dict assignment `m[k] = v`: overwrite in place, else append. -/
def dictSet (m : List (String × String)) (k v : String) : List (String × String) :=
  match m with
  | [] => [(k, v)]
  | p :: rest => if p.1 = k then (k, v) :: rest else p :: dictSet rest k v

/-- One iteration of the `for i, item in enumerate(prompts)` loop of
`main`: reuse an existing `{id}.png`, else copy the fixed image, else call
the API; on success compress to `{id}.jpg` (deleting the `.png`) and record
`images/{name}` under the item's alt; on failure leave everything unchanged
and skip. -/
def stepItem (env : Env) (cm : Bool) (st : RunState) (it : PromptItem) :
    RunState × Outcome :=
  let pngName := it.id ++ ".png"
  let promptEn := yamlToPrompt it.yaml (it.currencyMode.getD cm)
  let gen : Bool × List String :=
    if pngName ∈ st.images then (true, st.images)
    else if it.useFixed && env.daikichiExists then (true, fsAdd st.images pngName)
    else if env.apiOk promptEn it.id then (true, fsAdd st.images pngName)
    else (false, st.images)
  if gen.1 then
    let compressed : String × List String :=
      if env.compressOk pngName then
        (it.id ++ ".jpg", (fsAdd gen.2 (it.id ++ ".jpg")).erase pngName)
      else (pngName, gen.2)
    let rel := "images/" ++ compressed.1
    (⟨compressed.2, dictSet st.altToSrc it.alt rel⟩, Outcome.ok rel)
  else (st, Outcome.skip)

/-- The whole loop: fold `stepItem` over the prompt list, collecting the
per-item outcomes. -/
def runItems (env : Env) (cm : Bool) (st : RunState) :
    List PromptItem → RunState × List Outcome
  | [] => (st, [])
  | it :: rest =>
    let so := stepItem env cm st it
    let r := runItems env cm so.1 rest
    (r.1, so.2 :: r.2)

/-- The result of `main` after the config phase: an early `sys.exit` with a
printed message, or a completed run. -/
inductive MainResult
  | exited (msg : String) (code : Nat)
  | completed (cfg : Config) (st : RunState) (outcomes : List Outcome)
deriving DecidableEq

/-- `main` after argument checking: load the config (exiting with status 1
on a `FileNotFoundError`), then run the per-item loop.  `initialImages` is
the content of the `images` directory at start. -/
def mainModel (d : KwDir) (env : Env) (initialImages : List String)
    (prompts : List PromptItem) (cm : Bool) : MainResult :=
  match loadConfig d with
  | .error msg => .exited msg 1
  | .ok (cfg, _) =>
    let r := runItems env cm ⟨initialImages, []⟩ prompts
    .completed cfg r.1 r.2

/-- Whether a `MainResult` is an early exit with status 1 carrying an error
message (no generation, no HTML rewriting). -/
def isErrorExit : MainResult → Bool
  | .exited _ 1 => true
  | _ => false

deriving instance DecidableEq for Except

/-! ### Helper lemmas -/

theorem replaceFirstL_spec (pat repl : List Char) (t : List Char) :
    (replaceFirstL pat repl t = t ∧ ∀ i, occursAtL pat t i = false) ∨
    ∃ i, occursAtL pat t i = true ∧ (∀ j, j < i → occursAtL pat t j = false) ∧
      replaceFirstL pat repl t = t.take i ++ repl ++ t.drop (i + pat.length) := by
  induction t with
  | nil =>
    cases hp : pat.isEmpty with
    | true =>
      have hpat : pat = [] := by simpa using hp
      right
      refine ⟨0, ?_, ?_, ?_⟩
      · simp [occursAtL, hpat, List.isPrefixOf]
      · intro j hj; omega
      · simp [replaceFirstL, hp, hpat]
    | false =>
      left
      refine ⟨by simp [replaceFirstL, hp], ?_⟩
      intro i
      rcases pat with _ | ⟨a, as⟩
      · simp at hp
      · simp [occursAtL, List.isPrefixOf]
  | cons c rest ih =>
    by_cases hp : pat.isPrefixOf (c :: rest) = true
    · right
      refine ⟨0, ?_, ?_, ?_⟩
      · show pat.isPrefixOf ((c :: rest).drop 0) = true
        rw [List.drop_zero]; exact hp
      · intro j hj; omega
      · simp [replaceFirstL, hp]
    · have hp' : pat.isPrefixOf (c :: rest) = false := Bool.eq_false_iff.mpr hp
      rcases ih with ⟨he, hall⟩ | ⟨i, h1, h2, h3⟩
      · left
        refine ⟨by simp [replaceFirstL, hp', he], ?_⟩
        intro i
        cases i with
        | zero =>
          show pat.isPrefixOf ((c :: rest).drop 0) = false
          rw [List.drop_zero]; exact hp'
        | succ i =>
          show pat.isPrefixOf ((c :: rest).drop (i + 1)) = false
          rw [List.drop_succ_cons]; exact hall i
      · right
        refine ⟨i + 1, ?_, ?_, ?_⟩
        · show pat.isPrefixOf ((c :: rest).drop (i + 1)) = true
          rw [List.drop_succ_cons]; exact h1
        · intro j hj
          cases j with
          | zero =>
            show pat.isPrefixOf ((c :: rest).drop 0) = false
            rw [List.drop_zero]; exact hp'
          | succ j =>
            show pat.isPrefixOf ((c :: rest).drop (j + 1)) = false
            rw [List.drop_succ_cons]; exact h2 j (by omega)
        · have harith : i + 1 + pat.length = (i + pat.length) + 1 := by omega
          simp [replaceFirstL, hp', h3, harith]

theorem replaceFirstL_decomp (pat repl t : List Char) :
    replaceFirstL pat repl t = t ∨
      ∃ a b, t = a ++ pat ++ b ∧ replaceFirstL pat repl t = a ++ repl ++ b := by
  rcases replaceFirstL_spec pat repl t with ⟨he, _⟩ | ⟨i, h1, _, h3⟩
  · exact Or.inl he
  · right
    have hpre : pat <+: t.drop i := by
      rw [← List.isPrefixOf_iff_prefix]; exact h1
    rcases hpre with ⟨s, hs⟩
    have hdrop : t.drop (i + pat.length) = s := by
      rw [← List.drop_drop, ← hs, List.drop_left]
    refine ⟨t.take i, s, ?_, ?_⟩
    · conv_lhs => rw [← List.take_append_drop i t, ← hs]
      simp [List.append_assoc]
    · rw [h3, hdrop]

theorem replaceFirstL_no_occur {pat : List Char} (repl : List Char) {t : List Char}
    (h : occursL pat t = false) : replaceFirstL pat repl t = t := by
  induction t with
  | nil =>
    have hp : pat.isEmpty = false := by simpa [occursL] using h
    simp [replaceFirstL, hp]
  | cons c rest ih =>
    have h2 : pat.isPrefixOf (c :: rest) = false ∧ occursL pat rest = false := by
      constructor
      · rcases hb : pat.isPrefixOf (c :: rest) with _ | _
        · rfl
        · exfalso; rw [occursL, hb] at h; simp at h
      · rcases hb : occursL pat rest with _ | _
        · rfl
        · exfalso; rw [occursL, hb] at h; simp at h
    simp [replaceFirstL, h2.1, ih h2.2]

theorem parseTemplateGo_norm_no_backslash {repl : List Char} (h : '\\' ∉ repl) :
    parseTemplateGo TmplState.norm repl = .ok (repl.map TItem.ch) := by
  induction repl with
  | nil => rfl
  | cons c rest ih =>
    have hc : ¬ c = '\\' := fun he => h (he ▸ List.mem_cons_self c rest)
    have hrest : '\\' ∉ rest := fun hm => h (List.mem_cons_of_mem c hm)
    show (if c = '\\' then parseTemplateGo TmplState.bs rest
      else (parseTemplateGo TmplState.norm rest).map fun l => TItem.ch c :: l) = _
    rw [if_neg hc, ih hrest]
    rfl

theorem renderTemplateL_map_ch (repl matched : List Char) :
    renderTemplateL (repl.map TItem.ch) matched = repl := by
  induction repl with
  | nil => rfl
  | cons c rest ih =>
    show c :: renderTemplateL (rest.map TItem.ch) matched = c :: rest
    rw [ih]

theorem reSubOnceL_no_backslash {repl : List Char} (pat text : List Char)
    (h : '\\' ∉ repl) :
    reSubOnceL pat repl text = .ok (replaceFirstL pat repl text) := by
  unfold reSubOnceL parseTemplateL
  rw [parseTemplateGo_norm_no_backslash h]
  show Except.ok (replaceFirstL pat (renderTemplateL (repl.map TItem.ch) pat) text) = _
  rw [renderTemplateL_map_ch]

theorem replacementL_no_backslash {alt src : List Char}
    (ha : '\\' ∉ alt) (hs : '\\' ∉ src) : '\\' ∉ replacementL alt src := by
  unfold replacementL
  intro hm
  rcases List.mem_append.mp hm with hm | hm
  · rcases List.mem_append.mp hm with hm | hm
    · rcases List.mem_append.mp hm with hm | hm
      · rcases List.mem_append.mp hm with hm | hm
        · exact absurd hm (by decide)
        · exact hs hm
      · exact absurd hm (by decide)
    · exact ha hm
  · exact absurd hm (by decide)

theorem reSubOnceL_parse_error {repl : List Char} {e : String} (pat text : List Char)
    (hp : parseTemplateL repl = .error e) : reSubOnceL pat repl text = .error e := by
  unfold reSubOnceL
  rw [hp]

theorem reSubOnceL_parse_ok {repl : List Char} {items : List TItem} (pat text : List Char)
    (hp : parseTemplateL repl = .ok items) :
    reSubOnceL pat repl text =
      .ok (replaceFirstL pat (renderTemplateL items pat) text) := by
  unfold reSubOnceL
  rw [hp]

theorem updateHtmlL_cons (text : List Char) (p : List Char × List Char)
    (rest : List (List Char × List Char)) :
    updateHtmlL text (p :: rest) =
      match reSubOnceL (placeholderL p.1) (replacementL p.1 p.2) text with
      | .error e => .error e
      | .ok t2 => updateHtmlL t2 rest := rfl

theorem updateHtmlL_cons_error {text : List Char} {e : String}
    {p : List Char × List Char} {rest : List (List Char × List Char)}
    (hs : reSubOnceL (placeholderL p.1) (replacementL p.1 p.2) text = .error e) :
    updateHtmlL text (p :: rest) = .error e := by
  rw [updateHtmlL_cons, hs]

theorem updateHtmlL_cons_ok {text t2 : List Char}
    {p : List Char × List Char} {rest : List (List Char × List Char)}
    (hs : reSubOnceL (placeholderL p.1) (replacementL p.1 p.2) text = .ok t2) :
    updateHtmlL text (p :: rest) = updateHtmlL t2 rest := by
  rw [updateHtmlL_cons, hs]

theorem updateHtmlL_ok_no_occur {m : List (List Char × List Char)} :
    ∀ {t out : List Char}, updateHtmlL t m = .ok out →
      (∀ p ∈ m, occursL (placeholderL p.1) out = false) →
      updateHtmlL out m = .ok out := by
  induction m with
  | nil => intro t out _ _; rfl
  | cons p rest ih =>
    intro t out h1 h2
    rcases hs : reSubOnceL (placeholderL p.1) (replacementL p.1 p.2) t with e | t2
    · rw [updateHtmlL_cons_error hs] at h1
      exact absurd h1 (by simp)
    · rw [updateHtmlL_cons_ok hs] at h1
      rcases hp : parseTemplateL (replacementL p.1 p.2) with e | items
      · rw [reSubOnceL_parse_error (placeholderL p.1) t hp] at hs
        exact absurd hs (by simp)
      · have hstep2 : reSubOnceL (placeholderL p.1) (replacementL p.1 p.2) out = .ok out := by
          rw [reSubOnceL_parse_ok (placeholderL p.1) out hp,
            replaceFirstL_no_occur _ (h2 p (List.mem_cons_self p rest))]
        rw [updateHtmlL_cons_ok hstep2]
        exact ih h1 fun q hq => h2 q (List.mem_cons_of_mem p hq)

theorem updateHtmlL_eq_plain {m : List (List Char × List Char)}
    (h : ∀ p ∈ m, '\\' ∉ p.1 ∧ '\\' ∉ p.2) :
    ∀ text : List Char, updateHtmlL text m = .ok (updateHtmlPlainL text m) := by
  induction m with
  | nil => intro text; rfl
  | cons p rest ih =>
    intro text
    have hp := h p (List.mem_cons_self p rest)
    rw [updateHtmlL_cons_ok (reSubOnceL_no_backslash (placeholderL p.1) text
      (replacementL_no_backslash hp.1 hp.2))]
    exact ih (fun q hq => h q (List.mem_cons_of_mem p hq)) _

theorem updateHtmlPlainL_chain (m : List (List Char × List Char)) :
    ∀ t : List Char, PatchChain m t (updateHtmlPlainL t m) := by
  induction m with
  | nil => intro t; exact PatchChain.nil t
  | cons p rest ih =>
    rcases p with ⟨alt, src⟩
    intro t
    have hstep : PatchStep alt src t (replaceFirstL (placeholderL alt) (replacementL alt src) t) := by
      rcases replaceFirstL_decomp (placeholderL alt) (replacementL alt src) t with he | ⟨a, b, h1, h2⟩
      · rw [he]; exact PatchStep.unchanged t
      · rw [h2, h1]; exact PatchStep.rewrite a b
    exact PatchChain.cons hstep (ih _)

theorem placeholderStr_data (alt : String) :
    (placeholderStr alt).data = placeholderL alt.data := by
  simp [placeholderStr, placeholderL]

/-! ### Claim C1 -/

/-- Claim C1, counterexample: `update_html` is not idempotent for every
HTML text and mapping.  With two identical placeholders for alt `a` and a
nonempty src, the first application rewrites the first placeholder and the
second application rewrites the second, so applying twice differs from
applying once. -/
theorem update_html_not_idempotent_cex :
    Except.bind (updateHtml (placeholderStr "a" ++ placeholderStr "a") [("a", "x")])
        (fun once => updateHtml once [("a", "x")]) ≠
      updateHtml (placeholderStr "a" ++ placeholderStr "a") [("a", "x")] := by
  decide

/-- Claim C1, amended: when the first application succeeds with output
`out` and leaves no matching placeholder for any alt of the mapping in
`out`, the second application returns `out` unchanged — applying twice
equals applying once.  (With leftover placeholders the second application
rewrites one more per alt; a src whose template expansion re-creates a
placeholder, such as a `\g<0>` group reference, leaves one and is thereby
excluded.) -/
theorem update_html_idempotent_amended (text out : String)
    (m : List (String × String))
    (h1 : updateHtml text m = .ok out)
    (h2 : ∀ p ∈ m, occursStr (placeholderStr p.1) out = false) :
    updateHtml out m = .ok out := by
  rcases hr : updateHtmlL text.data (m.map fun p => (p.1.data, p.2.data)) with e | outL
  · rw [updateHtml, hr] at h1
    exact absurd h1 (by simp [Except.map])
  · rw [updateHtml, hr] at h1
    have houtL : out = ⟨outL⟩ := by
      have h3 : (⟨outL⟩ : String) = out := by
        simpa [Except.map] using h1
      rw [← h3]
    have hL : ∀ q ∈ m.map fun p => (p.1.data, p.2.data),
        occursL (placeholderL q.1) outL = false := by
      intro q hq
      rcases List.mem_map.mp hq with ⟨p, hp, hpq⟩
      have hocc := h2 p hp
      rw [occursStr, placeholderStr_data, houtL] at hocc
      rw [← hpq]
      exact hocc
    have hrun : updateHtmlL outL (m.map fun p => (p.1.data, p.2.data)) = .ok outL :=
      updateHtmlL_ok_no_occur hr hL
    rw [updateHtml, houtL]
    show (updateHtmlL outL (m.map fun p => (p.1.data, p.2.data))).map String.mk = _
    rw [hrun]
    rfl

/-- Claim C1, witness for the amended theorem at a concrete input with a
single placeholder. -/
theorem update_html_idempotent_amended_witness :
    updateHtml ("<p>t</p>" ++ replacementStr "a" "images/1.jpg")
        [("a", "images/1.jpg")] =
      .ok ("<p>t</p>" ++ replacementStr "a" "images/1.jpg") :=
  update_html_idempotent_amended ("<p>t</p>" ++ placeholderStr "a")
    ("<p>t</p>" ++ replacementStr "a" "images/1.jpg") [("a", "images/1.jpg")]
    (by decide) (by decide)

/-! ### Claim C2 -/

set_option maxRecDepth 8000 in
/-- Claim C2, counterexample: it is not true for every mapping that the
matched placeholder's empty src receives the mapped value.  `re.sub`
processes backslash template escapes in the replacement: with mapped value
`\g<0>` the src attribute receives the whole matched placeholder tag
instead of the mapped value. -/
theorem update_html_frame_cex :
    updateHtml (placeholderStr "a") [("a", "\\g<0>")] =
      .ok (replacementStr "a" (placeholderStr "a")) ∧
    replacementStr "a" (placeholderStr "a") ≠ replacementStr "a" "\\g<0>" := by
  decide

/-- Claim C2, amended: for a mapping whose alts and srcs contain no
backslash (so that every replacement template is inserted verbatim),
`update_html` succeeds and rewrites only matched placeholder attributes in
place.  The run is a chain of per-entry steps, each either leaving the
text unchanged or splitting it as `a ++ placeholder alt ++ b` and yielding
`a ++ replacement alt src ++ b`: only the matched placeholder tag of a
mapped alt changes (its empty src receiving the mapped value), every
character outside it is kept.  (With a backslash, the template expansion
— a group reference, a control-character escape, or a raised `re.error` —
replaces the tag by other text or aborts instead.) -/
theorem update_html_frame_amended (text : String) (m : List (String × String))
    (h : ∀ p ∈ m, '\\' ∉ p.1.data ∧ '\\' ∉ p.2.data) :
    updateHtml text m =
      .ok ⟨updateHtmlPlainL text.data (m.map fun p => (p.1.data, p.2.data))⟩ ∧
    PatchChain (m.map fun p => (p.1.data, p.2.data)) text.data
      (updateHtmlPlainL text.data (m.map fun p => (p.1.data, p.2.data))) := by
  have hL : ∀ q ∈ m.map fun p => (p.1.data, p.2.data), '\\' ∉ q.1 ∧ '\\' ∉ q.2 := by
    intro q hq
    rcases List.mem_map.mp hq with ⟨p, hp, hpq⟩
    rw [← hpq]
    exact h p hp
  constructor
  · rw [updateHtml, updateHtmlL_eq_plain hL text.data]
    rfl
  · exact updateHtmlPlainL_chain (m.map fun p => (p.1.data, p.2.data)) text.data

/-- Claim C2, witness for the amended theorem at a concrete
backslash-free mapping. -/
theorem update_html_frame_amended_witness :
    updateHtml ("<p>t</p>" ++ placeholderStr "a") [("a", "images/1.jpg")] =
      .ok ⟨updateHtmlPlainL ("<p>t</p>" ++ placeholderStr "a").data
        ([("a", "images/1.jpg")].map fun p => (p.1.data, p.2.data))⟩ ∧
    PatchChain ([("a", "images/1.jpg")].map fun p => (p.1.data, p.2.data))
      ("<p>t</p>" ++ placeholderStr "a").data
      (updateHtmlPlainL ("<p>t</p>" ++ placeholderStr "a").data
        ([("a", "images/1.jpg")].map fun p => (p.1.data, p.2.data))) :=
  update_html_frame_amended ("<p>t</p>" ++ placeholderStr "a")
    [("a", "images/1.jpg")] (by decide)

/-! ### Claim C8 -/

/-- Claim C8: per call, each mapping entry rewrites at most one placeholder
occurrence — the first in document order.  Processing entry `(alt, src)`
either aborts with the template's `re.error` (rewriting nothing), or
leaves the text unchanged (no placeholder for `alt` occurs at any
position), or continues with the text in which exactly the first
occurrence (no earlier position matches) is replaced by the rendered
template, even when several identical placeholders are present. -/
theorem update_html_first_occurrence (t : List Char) (alt src : List Char)
    (rest : List (List Char × List Char)) :
    (∃ e, renderedReplacementL alt src = .error e ∧
        updateHtmlL t ((alt, src) :: rest) = .error e) ∨
    ∃ r, renderedReplacementL alt src = .ok r ∧
      (((∀ i, occursAtL (placeholderL alt) t i = false) ∧
          updateHtmlL t ((alt, src) :: rest) = updateHtmlL t rest) ∨
        ∃ i, occursAtL (placeholderL alt) t i = true ∧
          (∀ j, j < i → occursAtL (placeholderL alt) t j = false) ∧
          updateHtmlL t ((alt, src) :: rest) =
            updateHtmlL (t.take i ++ r ++ t.drop (i + (placeholderL alt).length))
              rest) := by
  rcases hp : parseTemplateL (replacementL alt src) with e | items
  · left
    refine ⟨e, ?_, ?_⟩
    · unfold renderedReplacementL
      rw [hp]
    · exact updateHtmlL_cons_error (reSubOnceL_parse_error (placeholderL alt) t hp)
  · right
    refine ⟨renderTemplateL items (placeholderL alt), ?_, ?_⟩
    · unfold renderedReplacementL
      rw [hp]
    · have hstep : updateHtmlL t ((alt, src) :: rest) =
          updateHtmlL (replaceFirstL (placeholderL alt)
            (renderTemplateL items (placeholderL alt)) t) rest :=
        updateHtmlL_cons_ok (reSubOnceL_parse_ok (placeholderL alt) t hp)
      rcases replaceFirstL_spec (placeholderL alt)
          (renderTemplateL items (placeholderL alt)) t with ⟨he, hall⟩ | ⟨i, h1, h2, h3⟩
      · left
        exact ⟨hall, by rw [hstep, he]⟩
      · right
        exact ⟨i, h1, h2, by rw [hstep, h3]⟩

/-! ### Claim C3 -/

theorem filterMap_eq_filter_map {α β : Type} (f : α → Option β) (p : α → Bool)
    (g : α → β) (h : ∀ a, f a = if p a then some (g a) else none) (l : List α) :
    l.filterMap f = (l.filter p).map g := by
  induction l with
  | nil => rfl
  | cons a rest ih =>
    by_cases hp : p a = true
    · simp [List.filterMap_cons, List.filter_cons, h a, hp, ih]
    · simp [List.filterMap_cons, List.filter_cons, h a, hp, ih]

theorem lineValueL_eq_spec (line : List Char) :
    lineValueL line = if specKeepL line then some (specValueL line) else none := by
  simp only [lineValueL, specKeepL, specValueL]
  by_cases hc : ((stripL line).contains ':' && !startsHashL (stripL line)) = true
  · rw [if_pos hc, hc, Bool.true_and]
    by_cases hk : lowerL (stripL (breakAtColonL (stripL line)).1) = ("avoid").data
    · rw [if_pos hk]
      have : (lowerL (stripL (breakAtColonL (stripL line)).1) ==
          ("avoid").data) = true := by
        rw [hk]; exact beq_self_eq_true _
      rw [this]
      simp
    · have hne : (lowerL (stripL (breakAtColonL (stripL line)).1) ==
          ("avoid").data) = false := by
        rcases hb : lowerL (stripL (breakAtColonL (stripL line)).1) == ("avoid").data
        · rfl
        · exact absurd (eq_of_beq hb) hk
      rw [if_neg hk, hne]
      have hlow : lowerL (stripL (breakAtColonL (stripL line)).1) = [] ↔
          stripL (breakAtColonL (stripL line)).1 = [] := by
        unfold lowerL
        exact List.map_eq_nil_iff
      by_cases h1 : stripL (breakAtColonL (stripL line)).1 = []
      · have h1l : lowerL (stripL (breakAtColonL (stripL line)).1) = [] := hlow.mpr h1
        simp [h1, h1l, List.isEmpty_iff, lowerL]
      · have h1l : ¬ lowerL (stripL (breakAtColonL (stripL line)).1) = [] :=
          fun hx => h1 (hlow.mp hx)
        by_cases h2 : stripL (breakAtColonL (stripL line)).2 = []
        · simp [h1, h1l, h2, List.isEmpty_iff]
        · simp [h1, h1l, h2, List.isEmpty_iff]
  · rw [if_neg hc]
    have hcf : ((stripL line).contains ':' && !startsHashL (stripL line)) = false :=
      Bool.eq_false_iff.mpr hc
    rw [hcf, Bool.false_and]
    simp

/-- Claim C3: string assembly from structured input is correct.  The
source's `yaml_to_prompt` equals, for every input text and currency flag,
the concatenation described by the specification: quality literal,
`16:9 aspect ratio. `, the currency literal iff `currency_mode`, the
space-joined values of the kept lines, a trailing space, and the safety
suffix ending in `Abstract representation only.`. -/
theorem yaml_to_prompt_assembly (yamlText : String) (currencyMode : Bool) :
    yamlToPrompt yamlText currencyMode = yamlToPromptSpec yamlText currencyMode := by
  unfold yamlToPrompt yamlToPromptSpec
  refine congrArg String.mk ?_
  unfold yamlToPromptL yamlToPromptSpecL
  simp only [filterMap_eq_filter_map lineValueL specKeepL specValueL lineValueL_eq_spec]

/-! ### Claims C4, C6, C10: `load_config` and the start of `main` -/

/-- Claim C4: missing files terminate the process with a message.  If the
KW directory has neither a `初稿：*.html` glob match nor `初稿_新.html`, or
has no `image_prompts.yaml`, `main` ends in an early exit with status 1 and
an error message, before any generation or HTML rewriting (the `exited`
result carries no run). -/
theorem main_missing_files_exits (d : KwDir) (env : Env) (imgs : List String)
    (prompts : List PromptItem) (cm : Bool)
    (h : (d.shokoGlob = [] ∧ d.altHtmlExists = false) ∨ d.promptsYamlExists = false) :
    isErrorExit (mainModel d env imgs prompts cm) = true := by
  unfold mainModel loadConfig
  rcases h with ⟨hg, ha⟩ | hy
  · simp [hg, ha, isErrorExit]
  · rcases hd : d.shokoGlob with _ | ⟨f, fs⟩
    · rcases ha : d.altHtmlExists
      · simp [hy, isErrorExit]
      · simp [hy, isErrorExit]
    · simp [hy, isErrorExit]

/-- Claim C4, witness: a directory with no HTML candidates and no prompts
file makes `main` exit with status 1. -/
theorem main_missing_files_exits_witness :
    isErrorExit (mainModel ⟨[], false, false, false⟩
      ⟨false, fun _ _ => false, fun _ => true⟩ [] [] true) = true :=
  main_missing_files_exits ⟨[], false, false, false⟩
    ⟨false, fun _ _ => false, fun _ => true⟩ [] [] true (by decide)

/-- Claim C6: file discovery is correct for known layouts.  Whenever
`load_config` returns, the HTML file is one of the `初稿：*.html` glob
matches when any exists, it is `初稿_新.html` (which then exists) only when
no glob match exists, and the prompts file and images directory are always
`image_prompts.yaml` and `images` under the KW directory. -/
theorem load_config_discovery (d : KwDir) (cfg : Config) (d2 : KwDir)
    (h : loadConfig d = .ok (cfg, d2)) :
    (d.shokoGlob ≠ [] → cfg.htmlFile ∈ d.shokoGlob) ∧
    (d.shokoGlob = [] → cfg.htmlFile = "初稿_新.html" ∧ d.altHtmlExists = true) ∧
    cfg.promptsFile = "image_prompts.yaml" ∧ cfg.imagesDir = "images" := by
  unfold loadConfig at h
  rcases hg : d.shokoGlob with _ | ⟨f, fs⟩
  · rw [hg] at h
    rcases ha : d.altHtmlExists
    · rw [ha] at h; simp at h
    · rw [ha] at h
      simp only [List.isEmpty_nil, if_true] at h
      rcases hy : d.promptsYamlExists
      · rw [hy] at h; simp at h
      · rw [hy] at h
        simp only [if_true] at h
        cases h
        refine ⟨fun hne => absurd rfl hne, fun _ => ⟨rfl, rfl⟩, rfl, rfl⟩
  · rw [hg] at h
    simp only [List.isEmpty_cons, if_neg Bool.false_ne_true] at h
    rcases hy : d.promptsYamlExists
    · rw [hy] at h; simp at h
    · rw [hy] at h
      simp only [if_true] at h
      cases h
      refine ⟨fun _ => List.mem_cons_self f fs, fun he => absurd he (by simp), rfl, rfl⟩

/-- Claim C6, witness at a directory with two glob matches (and also the
fallback present): the first glob match is chosen. -/
theorem load_config_discovery_witness :
    ((⟨["初稿：a.html", "初稿：b.html"], true, true, false⟩ : KwDir).shokoGlob ≠ [] →
      (⟨"初稿：a.html", "image_prompts.yaml", "images"⟩ : Config).htmlFile ∈
        (⟨["初稿：a.html", "初稿：b.html"], true, true, false⟩ : KwDir).shokoGlob) ∧
    ((⟨["初稿：a.html", "初稿：b.html"], true, true, false⟩ : KwDir).shokoGlob = [] →
      (⟨"初稿：a.html", "image_prompts.yaml", "images"⟩ : Config).htmlFile = "初稿_新.html" ∧
        (⟨["初稿：a.html", "初稿：b.html"], true, true, false⟩ : KwDir).altHtmlExists = true) ∧
    (⟨"初稿：a.html", "image_prompts.yaml", "images"⟩ : Config).promptsFile =
      "image_prompts.yaml" ∧
    (⟨"初稿：a.html", "image_prompts.yaml", "images"⟩ : Config).imagesDir = "images" :=
  load_config_discovery ⟨["初稿：a.html", "初稿：b.html"], true, true, false⟩
    ⟨"初稿：a.html", "image_prompts.yaml", "images"⟩
    ⟨["初稿：a.html", "初稿：b.html"], true, true, true⟩ (by decide)

/-- Claim C10: whenever `load_config` returns successfully, the `images`
subdirectory exists in the resulting directory state — `mkdir(exist_ok=True)`
creates it when absent and succeeds when it is already there. -/
theorem load_config_images_dir (d : KwDir) (cfg : Config) (d2 : KwDir)
    (h : loadConfig d = .ok (cfg, d2)) : d2.imagesDirExists = true := by
  unfold loadConfig at h
  rcases hg : (if d.shokoGlob.isEmpty then
      (if d.altHtmlExists then ["初稿_新.html"] else []) else d.shokoGlob) with _ | ⟨f, fs⟩
  · rw [hg] at h; simp at h
  · rw [hg] at h
    rcases hy : d.promptsYamlExists
    · rw [hy] at h; simp at h
    · rw [hy] at h
      simp only [if_true] at h
      cases h
      rfl

/-- Claim C10, witness: a directory whose `images` subdirectory is absent
gets it created. -/
theorem load_config_images_dir_witness :
    (⟨["初稿：a.html"], false, true, true⟩ : KwDir).imagesDirExists = true :=
  load_config_images_dir ⟨["初稿：a.html"], false, true, false⟩
    ⟨"初稿：a.html", "image_prompts.yaml", "images"⟩
    ⟨["初稿：a.html"], false, true, true⟩ (by decide)

/-! ### Claims C5 and C7: the per-item loop -/

theorem runItems_append (env : Env) (cm : Bool) (xs ys : List PromptItem)
    (st : RunState) :
    runItems env cm st (xs ++ ys) =
      ((runItems env cm (runItems env cm st xs).1 ys).1,
        (runItems env cm st xs).2 ++ (runItems env cm (runItems env cm st xs).1 ys).2) := by
  induction xs generalizing st with
  | nil => simp [runItems]
  | cons it rest ih => simp [runItems, ih]

theorem stepItem_fail (env : Env) (cm : Bool) (st : RunState) (it : PromptItem)
    (h1 : ¬ (it.id ++ ".png") ∈ st.images)
    (h2 : (it.useFixed && env.daikichiExists) = false)
    (h3 : env.apiOk (yamlToPrompt it.yaml (it.currencyMode.getD cm)) it.id = false) :
    stepItem env cm st it = (st, Outcome.skip) := by
  simp [stepItem, h1, h2, h3]

/-- Claim C5: API failures are per-item and not fatal.  If one item fails
(no existing `{id}.png` at its turn, no usable fixed image, API returning
failure), the run's final state — `images` directory content and the whole
`alt_to_src` mapping — equals that of the run without the item, so no
mapping entry comes from it, its outcome is a logged `SKIP` in place, and
the remaining items are processed exactly as they would have been. -/
theorem api_failure_per_item (env : Env) (cm : Bool) (st0 : RunState)
    (pre post : List PromptItem) (bad : PromptItem)
    (h1 : ¬ (bad.id ++ ".png") ∈ (runItems env cm st0 pre).1.images)
    (h2 : (bad.useFixed && env.daikichiExists) = false)
    (h3 : env.apiOk (yamlToPrompt bad.yaml (bad.currencyMode.getD cm)) bad.id = false) :
    (runItems env cm st0 (pre ++ bad :: post)).1 =
      (runItems env cm st0 (pre ++ post)).1 ∧
    (runItems env cm st0 (pre ++ bad :: post)).2 =
      (runItems env cm st0 pre).2 ++
        Outcome.skip :: (runItems env cm (runItems env cm st0 pre).1 post).2 := by
  have hstep := stepItem_fail env cm (runItems env cm st0 pre).1 bad h1 h2 h3
  rw [runItems_append env cm pre (bad :: post) st0,
    runItems_append env cm pre post st0]
  constructor
  · show (runItems env cm (runItems env cm st0 pre).1 (bad :: post)).1 = _
    simp [runItems, hstep]
  · show _ ++ (runItems env cm (runItems env cm st0 pre).1 (bad :: post)).2 = _
    simp [runItems, hstep]

/-- Claim C5, witness: with no API configured, a failing item between two
other failing items is skipped and the run completes. -/
theorem api_failure_per_item_witness :
    (runItems ⟨false, fun _ _ => false, fun _ => true⟩ true ⟨[], []⟩
        ([⟨"a", "h", "alta", "", false, none⟩] ++
          (⟨"b", "h", "altb", "", false, none⟩ : PromptItem) ::
            [⟨"c", "h", "altc", "", false, none⟩])).1 =
      (runItems ⟨false, fun _ _ => false, fun _ => true⟩ true ⟨[], []⟩
        ([⟨"a", "h", "alta", "", false, none⟩] ++
          [⟨"c", "h", "altc", "", false, none⟩])).1 ∧
    (runItems ⟨false, fun _ _ => false, fun _ => true⟩ true ⟨[], []⟩
        ([⟨"a", "h", "alta", "", false, none⟩] ++
          (⟨"b", "h", "altb", "", false, none⟩ : PromptItem) ::
            [⟨"c", "h", "altc", "", false, none⟩])).2 =
      (runItems ⟨false, fun _ _ => false, fun _ => true⟩ true ⟨[], []⟩
          [⟨"a", "h", "alta", "", false, none⟩]).2 ++
        Outcome.skip ::
          (runItems ⟨false, fun _ _ => false, fun _ => true⟩ true
            (runItems ⟨false, fun _ _ => false, fun _ => true⟩ true ⟨[], []⟩
              [⟨"a", "h", "alta", "", false, none⟩]).1
            [⟨"c", "h", "altc", "", false, none⟩]).2 :=
  api_failure_per_item ⟨false, fun _ _ => false, fun _ => true⟩ true ⟨[], []⟩
    [⟨"a", "h", "alta", "", false, none⟩] [⟨"c", "h", "altc", "", false, none⟩]
    ⟨"b", "h", "altb", "", false, none⟩ (by decide) (by decide) (by decide)

/-- Claim C7, counterexample: identifier uniqueness is not enforced.  Two
prompt records sharing the id `x` (with different alts) are both processed
in one run — both receive an `OK` outcome and both alts are mapped — so a
run can process two records with the same identifier. -/
theorem duplicate_ids_processed_cex :
    (⟨"x", "h", "alta", "", false, none⟩ : PromptItem).id =
      (⟨"x", "h", "altb", "", false, none⟩ : PromptItem).id ∧
    (⟨"x", "h", "alta", "", false, none⟩ : PromptItem) ≠
      (⟨"x", "h", "altb", "", false, none⟩ : PromptItem) ∧
    (runItems ⟨false, fun _ _ => true, fun _ => true⟩ true ⟨[], []⟩
        [⟨"x", "h", "alta", "", false, none⟩, ⟨"x", "h", "altb", "", false, none⟩]).2 =
      [Outcome.ok "images/x.jpg", Outcome.ok "images/x.jpg"] ∧
    (runItems ⟨false, fun _ _ => true, fun _ => true⟩ true ⟨[], []⟩
        [⟨"x", "h", "alta", "", false, none⟩, ⟨"x", "h", "altb", "", false, none⟩]).1.altToSrc =
      [("alta", "images/x.jpg"), ("altb", "images/x.jpg")] := by
  decide

/-- Claim C7, amended: the system enforces no invariant on prompt record
identifiers.  Every record of the loaded list is processed — the loop
yields exactly one outcome per record, in order, whatever the ids are
(duplicates included) — and never terminates a run over them. -/
theorem run_processes_every_item (env : Env) (cm : Bool) (st : RunState)
    (items : List PromptItem) :
    (runItems env cm st items).2.length = items.length := by
  induction items generalizing st with
  | nil => rfl
  | cons it rest ih => simp [runItems, ih]

end GenerateH2Images
